import Mathlib

/-!
Verification of the batch NER client in
`examples/batch_processing_example.py` (class `OpenMedSpeciesDetector`).

The external SageMaker endpoint (serialization, `invoke_endpoint`, and JSON
decoding of the response body) is modelled as an oracle
`call : String → Except String (List Entity)`: `Except.error e` stands for
any exception raised inside the `try` block of `predict_single`, `Except.ok`
for a successfully decoded entity list.

The thread pool of `predict_batch` is modelled by two parameters:
`order : List Nat`, the order in which `as_completed` yields the futures
(a permutation of the submitted indices), and `fault : Nat → Option String`,
recording for each submitted index whether `future.result()` itself raises
(a pool-level fault not caught inside `predict_single`; `some msg` is the
`str(e)` of that exception).
-/

/-- A detected span as decoded from the endpoint response: fields `word`,
`score`, `start`, `end` of the JSON entity objects. -/
structure Entity where
  word : String
  score : Rat
  start : Int
  stop : Int
deriving DecidableEq, Repr

/-- One element of the list returned by `predict_batch`: the dict with keys
`index`, `text`, `entities`, `species_count`, `status`. -/
structure BatchResult where
  index : Nat
  text : String
  entities : List Entity
  species_count : Nat
  status : String
deriving DecidableEq, Repr

/-- Model of `OpenMedSpeciesDetector.predict_single`: serialize, call the endpoint,
decode; on any exception return the empty list (the `except` branch).
The oracle `call` bundles the fallible body of the `try` block. -/
def predict_single (call : String → Except String (List Entity))
    (text : String) : List Entity :=
  match call text with
  | Except.ok result => result
  | Except.error _ => []

/-- The body of the `as_completed` loop of `predict_batch`: wrap one
completed future for submitted index `i` and text `text` into a result
dict. `fault i = some msg` models `future.result()` raising with message
`msg`; otherwise `future.result()` returns what `predict_single` returned. -/
def collectResult (call : String → Except String (List Entity))
    (fault : Nat → Option String) (i : Nat) (text : String) : BatchResult :=
  match fault i with
  | some msg =>
      { index := i, text := text, entities := [], species_count := 0,
        status := "error: " ++ msg }
  | none =>
      let entities := predict_single call text
      { index := i, text := text, entities := entities,
        species_count := entities.length, status := "success" }

/-- Model of `OpenMedSpeciesDetector.predict_batch`: submit every `(i, text)` of
`enumerate(texts)` to the pool, collect results in completion order
`order`, then sort by original index (`results.sort(key=lambda x: x.index)`,
a stable sort). `max_workers` bounds the pool; it affects scheduling only,
which is already abstracted by `order`. -/
def predict_batch (call : String → Except String (List Entity))
    (fault : Nat → Option String) (order : List Nat)
    (texts : List String) (max_workers : Nat := 5) : List BatchResult :=
  let future_to_text := texts.enum
  let results := order.filterMap fun k =>
    (future_to_text.get? k).map fun it => collectResult call fault it.1 it.2
  results.mergeSort fun a b => a.index ≤ b.index

/-- One row of the output DataFrame of `process_file` (the dict appended to
`processed_data` for one entity of one result). -/
structure OutputRow where
  original_index : Nat
  original_text : String
  species : String
  confidence : Rat
  start_position : Int
  end_position : Int
  status : String
deriving DecidableEq, Repr

/-- The rows that one `BatchResult` contributes to `processed_data`: one row
per entity of the result (`for entity in result.entities`). -/
def rowsOfResult (r : BatchResult) : List OutputRow :=
  r.entities.map fun e =>
    { original_index := r.index, original_text := r.text,
      species := e.word, confidence := e.score,
      start_position := e.start, end_position := e.stop,
      status := r.status }

/-- Model of `OpenMedSpeciesDetector.process_file`: the CSV file is modelled as the
association list `frame` of column name to column values (`df.columns` is
the list of keys). If the configured text column is absent the call raises
`ValueError` with the message naming the column (`Except.error`); otherwise
the column is the text list, `predict_batch` runs with its default
`max_workers`, and the nested results are flattened one row per entity. -/
def process_file (call : String → Except String (List Entity))
    (fault : Nat → Option String) (order : List Nat)
    (frame : List (String × List String)) (text_column : String := "text") :
    Except String (List OutputRow) :=
  match frame.lookup text_column with
  | none =>
      Except.error ("Column '" ++ text_column ++ "' not found in file")
  | some texts =>
      let results := predict_batch call fault order texts
      Except.ok (results.flatMap rowsOfResult)

/-- The output of `predict_batch` once the collection order is sorted away:
one `collectResult` per enumerated input, in input order. -/
def batchCanonical (call : String → Except String (List Entity))
    (fault : Nat → Option String) (texts : List String) : List BatchResult :=
  texts.enum.map fun it => collectResult call fault it.1 it.2

lemma collectResult_index (call : String → Except String (List Entity))
    (fault : Nat → Option String) (i : Nat) (t : String) :
    (collectResult call fault i t).index = i := by
  cases h : fault i <;> simp [collectResult, h]

lemma collectResult_text (call : String → Except String (List Entity))
    (fault : Nat → Option String) (i : Nat) (t : String) :
    (collectResult call fault i t).text = t := by
  cases h : fault i <;> simp [collectResult, h]

lemma collectResult_count (call : String → Except String (List Entity))
    (fault : Nat → Option String) (i : Nat) (t : String) :
    (collectResult call fault i t).species_count =
      (collectResult call fault i t).entities.length := by
  cases h : fault i <;> simp [collectResult, h]

lemma collectResult_status (call : String → Except String (List Entity))
    (fault : Nat → Option String) (i : Nat) (t : String) :
    (collectResult call fault i t).status = "success" ∨
      ∃ msg, fault i = some msg ∧
        (collectResult call fault i t).status = "error: " ++ msg ∧
        (collectResult call fault i t).entities = [] := by
  cases h : fault i with
  | none => exact Or.inl (by simp [collectResult, h])
  | some msg => exact Or.inr ⟨msg, rfl, by simp [collectResult, h], by simp [collectResult, h]⟩

lemma range_filterMap_get {α β : Type} (xs : List α) (g : α → β) :
    (List.range xs.length).filterMap (fun k => (xs.get? k).map g) = xs.map g := by
  induction xs with
  | nil => simp
  | cons a t ih =>
    have ht : ((fun k => ((a :: t).get? k).map g) ∘ Nat.succ) =
        (fun k => (t.get? k).map g) := rfl
    rw [List.length_cons, List.range_succ_eq_map, List.filterMap_cons,
      List.filterMap_map, ht, ih]
    simp

lemma batchCanonical_map_index (call : String → Except String (List Entity))
    (fault : Nat → Option String) (texts : List String) :
    (batchCanonical call fault texts).map BatchResult.index =
      List.range texts.length := by
  unfold batchCanonical
  rw [List.map_map]
  have h : (BatchResult.index ∘ fun it : Nat × String =>
      collectResult call fault it.1 it.2) = Prod.fst := by
    funext it
    simp [Function.comp, collectResult_index]
  rw [h, List.enum_map_fst]

lemma batchCanonical_pairwise_lt (call : String → Except String (List Entity))
    (fault : Nat → Option String) (texts : List String) :
    (batchCanonical call fault texts).Pairwise
      (fun a b => a.index < b.index) := by
  have h1 : (texts.enum.map Prod.fst).Pairwise (fun a b => a < b) := by
    rw [List.enum_map_fst]
    exact List.pairwise_lt_range _
  rw [List.pairwise_map] at h1
  unfold batchCanonical
  rw [List.pairwise_map]
  exact h1.imp (by
    intro p q hpq
    rw [collectResult_index, collectResult_index]
    exact hpq)

/-- Sorting a list of results by index recovers the unique list that is a
permutation of it and strictly sorted on indices. -/
lemma mergeSort_index_eq (l can : List BatchResult)
    (hperm : l.Perm can)
    (hcan : can.Pairwise (fun a b => a.index < b.index)) :
    l.mergeSort (fun a b => a.index ≤ b.index) = can := by
  have hp : (l.mergeSort (fun a b => a.index ≤ b.index)).Perm can :=
    (List.mergeSort_perm l _).trans hperm
  have hs : (l.mergeSort (fun a b => a.index ≤ b.index)).Pairwise
      (fun a b => decide (a.index ≤ b.index) = true) := by
    apply List.sorted_mergeSort
    · intro a b c hab hbc
      simp only [decide_eq_true_eq] at *
      omega
    · intro a b
      simp only [Bool.or_eq_true, decide_eq_true_eq]
      omega
  have hnodup : ((l.mergeSort (fun a b => a.index ≤ b.index)).map
      BatchResult.index).Nodup := by
    have hcann : (can.map BatchResult.index).Nodup :=
      List.pairwise_map.mpr (hcan.imp (fun hab => Nat.ne_of_lt hab))
    exact (hp.map BatchResult.index).nodup_iff.mpr hcann
  have hlt : (l.mergeSort (fun a b => a.index ≤ b.index)).Pairwise
      (fun a b => a.index < b.index) := by
    have hne := List.pairwise_map.mp hnodup
    refine (hs.and hne).imp ?_
    intro a b hab
    have h1 := hab.1
    simp only [decide_eq_true_eq] at h1
    exact lt_of_le_of_ne h1 hab.2
  haveI : IsAntisymm BatchResult (fun a b => a.index < b.index) :=
    ⟨fun a b h1 h2 => absurd (h1.trans h2) (lt_irrefl _)⟩
  exact List.eq_of_perm_of_sorted hp hlt hcan

/-- Master lemma: whenever the completion order is a permutation of the
submitted indices, the sorted output of `predict_batch` is exactly one
result per input, in input order. -/
lemma predict_batch_eq_canonical (call : String → Except String (List Entity))
    (fault : Nat → Option String) (order : List Nat) (texts : List String)
    (mw : Nat) (h : order.Perm (List.range texts.length)) :
    predict_batch call fault order texts mw = batchCanonical call fault texts := by
  have hdef : predict_batch call fault order texts mw =
      (order.filterMap fun k => (texts.enum.get? k).map
        fun it => collectResult call fault it.1 it.2).mergeSort
        (fun a b => a.index ≤ b.index) := rfl
  rw [hdef]
  apply mergeSort_index_eq
  · have hp := h.filterMap fun k => (texts.enum.get? k).map
      fun it => collectResult call fault it.1 it.2
    have h3 : ((List.range texts.length).filterMap fun k =>
        (texts.enum.get? k).map fun it => collectResult call fault it.1 it.2) =
        batchCanonical call fault texts := by
      have hl : texts.length = texts.enum.length := (List.enum_length).symm
      rw [hl]
      exact range_filterMap_get _ _
    rw [h3] at hp
    exact hp
  · exact batchCanonical_pairwise_lt call fault texts

lemma predict_batch_def (call : String → Except String (List Entity))
    (fault : Nat → Option String) (order : List Nat) (texts : List String)
    (mw : Nat) :
    predict_batch call fault order texts mw =
      (order.filterMap fun k => (texts.enum.get? k).map
        fun it => collectResult call fault it.1 it.2).mergeSort
        (fun a b => a.index ≤ b.index) := rfl

lemma batchCanonical_get? (call : String → Except String (List Entity))
    (fault : Nat → Option String) (texts : List String) (i : Nat) :
    (batchCanonical call fault texts).get? i =
      (texts.get? i).map fun t => collectResult call fault i t := by
  unfold batchCanonical
  rw [List.get?_map, List.get?_enum]
  cases texts.get? i <;> rfl

lemma mem_predict_batch (call : String → Except String (List Entity))
    (fault : Nat → Option String) (order : List Nat) (texts : List String)
    (mw : Nat) {r : BatchResult}
    (hr : r ∈ predict_batch call fault order texts mw) :
    ∃ i t, texts.get? i = some t ∧ r = collectResult call fault i t := by
  rw [predict_batch_def] at hr
  have h1 := List.mem_mergeSort.mp hr
  rcases List.mem_filterMap.mp h1 with ⟨k, _, hk⟩
  rcases Option.map_eq_some'.mp hk with ⟨it, hit, rfl⟩
  rw [List.get?_enum] at hit
  rcases Option.map_eq_some'.mp hit with ⟨a, ha, hxa⟩
  cases hxa
  exact ⟨k, a, ha, rfl⟩

/-- C1: for every input list of length N and every positive concurrency
bound, `predict_batch` returns exactly N results, and for every `i < N` the
i-th result has index `i` and carries the i-th input text, for every
completion order of the workers. -/
theorem predict_batch_length_index_text
    (call : String → Except String (List Entity)) (fault : Nat → Option String)
    (order : List Nat) (texts : List String) (mw : Nat)
    (hmw : 0 < mw) (h : order.Perm (List.range texts.length)) :
    (predict_batch call fault order texts mw).length = texts.length ∧
    ∀ i, i < texts.length →
      ∃ r, (predict_batch call fault order texts mw).get? i = some r ∧
        r.index = i ∧ texts.get? i = some r.text := by
  rw [predict_batch_eq_canonical call fault order texts mw h]
  refine ⟨by simp [batchCanonical], ?_⟩
  intro i hi
  refine ⟨collectResult call fault i (texts.get ⟨i, hi⟩), ?_,
    collectResult_index call fault i _, ?_⟩
  · rw [batchCanonical_get?, List.get?_eq_get hi]
    rfl
  · rw [List.get?_eq_get hi, collectResult_text]

/-- C2: if the external call (serialization, endpoint invocation, or
response decoding) fails for a text, `predict_single` returns the empty
entity list; its total return type records that no exception escapes. -/
theorem predict_single_swallows_errors
    (call : String → Except String (List Entity)) (text : String) (e : String)
    (h : call text = Except.error e) :
    predict_single call text = [] := by
  simp [predict_single, h]

/-- C7: omitting the optional parameters, `predict_batch` runs with
`max_workers = 5` and `process_file` with `text_column = "text"`. -/
theorem default_parameter_values
    (call : String → Except String (List Entity)) (fault : Nat → Option String)
    (order : List Nat) (texts : List String)
    (frame : List (String × List String)) :
    predict_batch call fault order texts = predict_batch call fault order texts 5 ∧
    process_file call fault order frame = process_file call fault order frame "text" :=
  ⟨rfl, rfl⟩

/-- C10: on the empty input list, `predict_batch` returns the empty list
for every positive concurrency bound. -/
theorem predict_batch_nil
    (call : String → Except String (List Entity)) (fault : Nat → Option String)
    (order : List Nat) (mw : Nat) (hmw : 0 < mw)
    (h : order.Perm (List.range ([] : List String).length)) :
    predict_batch call fault order [] mw = [] := by
  rw [predict_batch_eq_canonical call fault order [] mw h]
  rfl

/-- C3: if the external call fails for every text and no pool-level fault
occurs, every result of `predict_batch` has status `success` with an empty
entity list and count zero — the failures are swallowed inside
`predict_single` and never become an `error` status. -/
theorem predict_batch_all_failures_still_success
    (call : String → Except String (List Entity)) (fault : Nat → Option String)
    (order : List Nat) (texts : List String) (mw : Nat)
    (hcall : ∀ t, ∃ e, call t = Except.error e)
    (hfault : ∀ i, fault i = none) :
    ∀ r ∈ predict_batch call fault order texts mw,
      r.status = "success" ∧ r.entities = [] ∧ r.species_count = 0 := by
  intro r hr
  rcases mem_predict_batch call fault order texts mw hr with ⟨i, t, _, rfl⟩
  obtain ⟨e, he⟩ := hcall t
  refine ⟨?_, ?_, ?_⟩ <;> simp [collectResult, hfault i, predict_single, he]

/-- C4: if the worker layer raises for exactly one submitted index, exactly
that item's result becomes `error: <message>` with no entities and count
zero, and every other position of the output equals the output of the
fault-free run. -/
theorem predict_batch_single_fault_isolated
    (call : String → Except String (List Entity)) (fault : Nat → Option String)
    (order : List Nat) (texts : List String) (mw : Nat) (i0 : Nat) (msg : String)
    (hmw : 0 < mw) (h : order.Perm (List.range texts.length))
    (hi0 : i0 < texts.length)
    (hf : fault i0 = some msg) (hothers : ∀ j, j ≠ i0 → fault j = none) :
    (∃ t, texts.get? i0 = some t ∧
      (predict_batch call fault order texts mw).get? i0 =
        some { index := i0, text := t, entities := [], species_count := 0,
               status := "error: " ++ msg }) ∧
    ∀ j, j ≠ i0 →
      (predict_batch call fault order texts mw).get? j =
        (predict_batch call (fun _ => none) order texts mw).get? j := by
  rw [predict_batch_eq_canonical call fault order texts mw h,
    predict_batch_eq_canonical call (fun _ => none) order texts mw h]
  constructor
  · refine ⟨texts.get ⟨i0, hi0⟩, List.get?_eq_get hi0, ?_⟩
    rw [batchCanonical_get?, List.get?_eq_get hi0]
    simp [collectResult, hf]
  · intro j hj
    rw [batchCanonical_get?, batchCanonical_get?]
    cases texts.get? j with
    | none => rfl
    | some t => simp [collectResult, hothers j hj]

/-- C8: every result of `predict_batch` has `species_count` equal to the
length of its entity list, and every result whose status begins with
`error:` (that is, equals `"error:"` followed by some suffix) carries an
empty entity list and count zero. -/
theorem predict_batch_count_invariant
    (call : String → Except String (List Entity)) (fault : Nat → Option String)
    (order : List Nat) (texts : List String) (mw : Nat) :
    ∀ r ∈ predict_batch call fault order texts mw,
      r.species_count = r.entities.length ∧
      (∀ suffix, r.status = "error:" ++ suffix →
        r.entities = [] ∧ r.species_count = 0) := by
  intro r hr
  rcases mem_predict_batch call fault order texts mw hr with ⟨i, t, _, rfl⟩
  refine ⟨collectResult_count call fault i t, ?_⟩
  intro suffix herr
  cases hf : fault i with
  | none =>
    exfalso
    have hs : (collectResult call fault i t).status = "success" := by
      simp [collectResult, hf]
    rw [hs] at herr
    obtain ⟨data⟩ := suffix
    simp [String.ext_iff] at herr
  | some msg =>
    constructor <;> simp [collectResult, hf]

/-- C5: on success, the flattened output of `process_file` is exactly the
concatenation, in result order, of one row per entity of each result: a
result with k entities contributes the k rows of `rowsOfResult`, each
carrying its original index and text, and a result with no entities
contributes no rows. -/
theorem process_file_flattens
    (call : String → Except String (List Entity)) (fault : Nat → Option String)
    (order : List Nat) (frame : List (String × List String)) (tc : String)
    (texts : List String) (rows : List OutputRow)
    (hcol : frame.lookup tc = some texts)
    (hout : process_file call fault order frame tc = Except.ok rows) :
    rows = (predict_batch call fault order texts).flatMap rowsOfResult ∧
    ∀ r ∈ predict_batch call fault order texts,
      (rowsOfResult r).length = r.entities.length ∧
      (∀ row ∈ rowsOfResult r,
        row.original_index = r.index ∧ row.original_text = r.text) ∧
      (r.entities = [] → rowsOfResult r = []) := by
  simp only [process_file, hcol, Except.ok.injEq] at hout
  refine ⟨hout.symm, ?_⟩
  intro r _
  refine ⟨by simp [rowsOfResult], ?_, ?_⟩
  · intro row hrow
    rcases List.mem_map.mp hrow with ⟨e, he, rfl⟩
    exact ⟨rfl, rfl⟩
  · intro hent
    simp [rowsOfResult, hent]

/-- C6: if the configured text column is not among the columns of the
input, `process_file` fails with the error naming that column, whatever
the endpoint, the pool behaviour and the completion order — the batch
layer is never consulted. -/
theorem process_file_missing_column
    (call : String → Except String (List Entity)) (fault : Nat → Option String)
    (order : List Nat) (frame : List (String × List String)) (tc : String)
    (h : tc ∉ frame.map Prod.fst) :
    process_file call fault order frame tc =
      Except.error ("Column '" ++ tc ++ "' not found in file") := by
  have hl : frame.lookup tc = none := by
    rw [List.lookup_eq_none_iff]
    intro p hp
    have hne : tc ≠ p.1 := by
      intro e
      exact h (e ▸ List.mem_map_of_mem Prod.fst hp)
    simpa using hne
  simp [process_file, hl]

/-- C9: every row of a successful `process_file` output has status
`success`: error-tagged results carry no entities, hence contribute no
rows, so the status column of the flattened table is constant. -/
theorem process_file_rows_all_success
    (call : String → Except String (List Entity)) (fault : Nat → Option String)
    (order : List Nat) (frame : List (String × List String)) (tc : String)
    (rows : List OutputRow)
    (hout : process_file call fault order frame tc = Except.ok rows) :
    ∀ row ∈ rows, row.status = "success" := by
  cases hl : frame.lookup tc with
  | none => simp [process_file, hl] at hout
  | some texts =>
    simp only [process_file, hl, Except.ok.injEq] at hout
    subst hout
    intro row hrow
    rcases List.mem_flatMap.mp hrow with ⟨r, hrmem, hrow2⟩
    rcases mem_predict_batch call fault order texts 5 hrmem with ⟨i, t, _, rfl⟩
    rcases List.mem_map.mp hrow2 with ⟨e, he, rfl⟩
    cases hf : fault i with
    | some msg =>
      exfalso
      have hent : (collectResult call fault i t).entities = [] := by
        simp [collectResult, hf]
      rw [hent] at he
      exact absurd he (List.not_mem_nil e)
    | none =>
      simp [collectResult, hf]

/-- Endpoint stub that always succeeds with no entities. -/
def callOkEmpty : String → Except String (List Entity) := fun _ => Except.ok []

/-- Endpoint stub that always raises. -/
def callFail : String → Except String (List Entity) := fun _ =>
  Except.error "network error"

/-- Endpoint stub of the concrete scenario: one entity for the text `x`,
none for any other text. -/
def callScenario : String → Except String (List Entity) := fun t =>
  if t = "x" then
    Except.ok [{ word := "E. coli", score := 19 / 20, start := 0, stop := 7 }]
  else Except.ok []

/-- Pool behaviour with no worker-level fault. -/
def faultNone : Nat → Option String := fun _ => none

/-- Pool behaviour with a worker-level fault at index 0 only. -/
def faultAt0 : Nat → Option String := fun i =>
  if i = 0 then some "boom" else none

/-- The flattened table of the concrete scenario: exactly one row, for the
text `x`. -/
def scenarioRows : List OutputRow :=
  [{ original_index := 0, original_text := "x", species := "E. coli",
     confidence := 19 / 20, start_position := 0, end_position := 7,
     status := "success" }]

theorem predict_batch_length_index_text_witness :
    0 < 5 ∧
    ([1, 0] : List Nat).Perm (List.range (["a", "b"] : List String).length) ∧
    ((predict_batch callOkEmpty faultNone [1, 0] ["a", "b"] 5).length =
        (["a", "b"] : List String).length ∧
      ∀ i, i < (["a", "b"] : List String).length →
        ∃ r, (predict_batch callOkEmpty faultNone [1, 0] ["a", "b"] 5).get? i =
            some r ∧ r.index = i ∧
          (["a", "b"] : List String).get? i = some r.text) :=
  ⟨by decide, by decide,
    predict_batch_length_index_text callOkEmpty faultNone [1, 0] ["a", "b"] 5
      (by decide) (by decide)⟩

theorem predict_single_swallows_errors_witness :
    callFail "x" = Except.error "network error" ∧
    predict_single callFail "x" = [] :=
  ⟨rfl, predict_single_swallows_errors callFail "x" "network error" rfl⟩

theorem predict_batch_all_failures_still_success_witness :
    (∀ t, ∃ e, callFail t = Except.error e) ∧ (∀ i, faultNone i = none) ∧
    ∀ r ∈ predict_batch callFail faultNone [0] ["x"] 5,
      r.status = "success" ∧ r.entities = [] ∧ r.species_count = 0 :=
  ⟨fun _ => ⟨"network error", rfl⟩, fun _ => rfl,
    predict_batch_all_failures_still_success callFail faultNone [0] ["x"] 5
      (fun _ => ⟨"network error", rfl⟩) (fun _ => rfl)⟩

theorem predict_batch_single_fault_isolated_witness :
    0 < 5 ∧
    ([1, 0] : List Nat).Perm (List.range (["a", "b"] : List String).length) ∧
    0 < (["a", "b"] : List String).length ∧
    faultAt0 0 = some "boom" ∧ (∀ j, j ≠ 0 → faultAt0 j = none) ∧
    ((∃ t, (["a", "b"] : List String).get? 0 = some t ∧
        (predict_batch callOkEmpty faultAt0 [1, 0] ["a", "b"] 5).get? 0 =
          some { index := 0, text := t, entities := [], species_count := 0,
                 status := "error: " ++ "boom" }) ∧
      ∀ j, j ≠ 0 →
        (predict_batch callOkEmpty faultAt0 [1, 0] ["a", "b"] 5).get? j =
          (predict_batch callOkEmpty (fun _ => none) [1, 0] ["a", "b"] 5).get? j) :=
  ⟨by decide, by decide, by decide, rfl, fun j hj => by simp [faultAt0, hj],
    predict_batch_single_fault_isolated callOkEmpty faultAt0 [1, 0] ["a", "b"]
      5 0 "boom" (by decide) (by decide) (by decide) rfl
      (fun j hj => by simp [faultAt0, hj])⟩

/-- The result produced for the single text `a` in the fault-free,
empty-response run. -/
def successResultA : BatchResult :=
  { index := 0, text := "a", entities := [], species_count := 0,
    status := "success" }

theorem predict_batch_count_invariant_witness :
    successResultA ∈ predict_batch callOkEmpty faultNone [0] ["a"] 5 ∧
    (successResultA.species_count = successResultA.entities.length ∧
      ∀ suffix, successResultA.status = "error:" ++ suffix →
        successResultA.entities = [] ∧ successResultA.species_count = 0) := by
  have hmem : successResultA ∈ predict_batch callOkEmpty faultNone [0] ["a"] 5 := by
    rw [predict_batch_eq_canonical callOkEmpty faultNone [0] ["a"] 5 (by decide)]
    decide
  exact ⟨hmem,
    predict_batch_count_invariant callOkEmpty faultNone [0] ["a"] 5 _ hmem⟩

theorem predict_batch_nil_witness :
    0 < 5 ∧ ([] : List Nat).Perm (List.range ([] : List String).length) ∧
    predict_batch callOkEmpty faultNone [] [] 5 = [] :=
  ⟨by decide, by decide,
    predict_batch_nil callOkEmpty faultNone [] 5 (by decide) (by decide)⟩

theorem process_file_flattens_witness :
    ([("text", ["x", "y"])] : List (String × List String)).lookup "text" =
      some ["x", "y"] ∧
    process_file callScenario faultNone [0, 1] [("text", ["x", "y"])] "text" =
      Except.ok scenarioRows ∧
    (scenarioRows =
        (predict_batch callScenario faultNone [0, 1] ["x", "y"]).flatMap
          rowsOfResult ∧
      ∀ r ∈ predict_batch callScenario faultNone [0, 1] ["x", "y"],
        (rowsOfResult r).length = r.entities.length ∧
        (∀ row ∈ rowsOfResult r,
          row.original_index = r.index ∧ row.original_text = r.text) ∧
        (r.entities = [] → rowsOfResult r = [])) := by
  have hcol : ([("text", ["x", "y"])] : List (String × List String)).lookup
      "text" = some ["x", "y"] := by decide
  have hout : process_file callScenario faultNone [0, 1] [("text", ["x", "y"])]
      "text" = Except.ok scenarioRows := by
    simp only [process_file, hcol]
    rw [predict_batch_eq_canonical callScenario faultNone [0, 1] ["x", "y"] 5
      (by decide)]
    rfl
  exact ⟨hcol, hout,
    process_file_flattens callScenario faultNone [0, 1] [("text", ["x", "y"])]
      "text" ["x", "y"] scenarioRows hcol hout⟩

theorem process_file_missing_column_witness :
    "text" ∉ ([("body", ["x"])] : List (String × List String)).map Prod.fst ∧
    process_file callOkEmpty faultNone [0] [("body", ["x"])] "text" =
      Except.error ("Column '" ++ "text" ++ "' not found in file") :=
  ⟨by decide,
    process_file_missing_column callOkEmpty faultNone [0] [("body", ["x"])]
      "text" (by decide)⟩

theorem process_file_rows_all_success_witness :
    process_file callScenario faultNone [0, 1] [("text", ["x", "y"])] "text" =
      Except.ok scenarioRows ∧
    ∀ row ∈ scenarioRows, row.status = "success" := by
  have hout : process_file callScenario faultNone [0, 1] [("text", ["x", "y"])]
      "text" = Except.ok scenarioRows := by
    have hcol : ([("text", ["x", "y"])] : List (String × List String)).lookup
        "text" = some ["x", "y"] := by decide
    simp only [process_file, hcol]
    rw [predict_batch_eq_canonical callScenario faultNone [0, 1] ["x", "y"] 5
      (by decide)]
    rfl
  exact ⟨hout,
    process_file_rows_all_success callScenario faultNone [0, 1]
      [("text", ["x", "y"])] "text" scenarioRows hout⟩
